import Mathlib

/-!
Shallow embedding of the three Miro scripts of this repository:
miro_license_monitor.py, miro_boards_export.py and miro_members_export.py.

Pagination loops are modelled with an explicit fuel bound: a result of
none means the fuel ran out, so genuine nontermination of the Python
while-loop shows up as none for every fuel. One HTTP exchange is modelled
by FetchOutcome; Python dict.get on an absent or null key is modelled with
Option, and Python truthiness of the strings involved is made explicit.
-/

namespace Miro

/-- Python truthiness of an optional string: None (absent or null key) and
the empty string are falsy, every other string is truthy. This is the test
performed by the sources in statements such as the cursor check. -/
def truthyStr : Option String → Bool
  | none => false
  | some s => !s.isEmpty

/-- Python truthiness of an optional bool, as produced by dict.get on the
active flag: an absent key is falsy, otherwise the bool itself. -/
def pyTruthyBool : Option Bool → Bool
  | none => false
  | some b => b

/-- Rendering of an optional string into a CSV cell: the csv module writes
None as the empty cell and a string as itself. -/
def strCell : Option String → String
  | none => ""
  | some s => s

/-- Rendering of an optional bool into a CSV cell. -/
def boolCell : Option Bool → String
  | none => ""
  | some true => "True"
  | some false => "False"

/-- Errors a fetch can raise: a non-success HTTP status (raise_for_status)
or a response body that fails to parse as JSON (response.json()). -/
inductive FetchErr where
  | http (status : Nat) (body : String)
  | malformed
deriving DecidableEq, Repr

/-- Outcome of one HTTP GET in a pagination loop: a parsed page carrying
its record list (the data field, absent key defaulting to the empty list)
and a continuation token, or a non-success status, or an unparseable body. -/
inductive FetchOutcome (α : Type) where
  | page (data : List α) (tok : Option String)
  | httpError (status : Nat) (body : String)
  | malformedBody
deriving DecidableEq, Repr

/-- A response at which a pagination loop stops on its own: if it is a page
at all, its continuation token is falsy. -/
def Terminal {α : Type} (o : FetchOutcome α) : Prop :=
  ∀ d c, o = FetchOutcome.page d c → truthyStr c = false

/-- ChainTo f req ds ts last: starting from request req, the page source f
serves the record lists ds page by page, each page carrying the truthy
cursor token of ts that leads to the next request, and last is the request
reached after the whole prefix has been consumed. -/
inductive ChainTo {α : Type} (f : Option String → FetchOutcome α) :
    Option String → List (List α) → List String → Option String → Prop where
  | nil (req : Option String) : ChainTo f req [] [] req
  | cons (req : Option String) (d : List α) (t : String) (ds : List (List α))
      (ts : List String) (last : Option String)
      (hsrc : f req = FetchOutcome.page d (some t))
      (ht : truthyStr (some t) = true)
      (hrest : ChainTo f (some t) ds ts last) :
      ChainTo f req (d :: ds) (t :: ts) last

/-- LinkChainTo f url ds last: starting from url, the link-style page
source f serves the record lists ds page by page, each page carrying a
truthy next link, and last is the URL reached after the prefix. -/
inductive LinkChainTo {α : Type} (f : String → FetchOutcome α) :
    String → List (List α) → String → Prop where
  | nil (url : String) : LinkChainTo f url [] url
  | cons (url : String) (d : List α) (u : String) (ds : List (List α)) (last : String)
      (hsrc : f url = FetchOutcome.page d (some u))
      (ht : truthyStr (some u) = true)
      (hrest : LinkChainTo f u ds last) :
      LinkChainTo f url (d :: ds) last

theorem chainTo_lengths {α : Type} {f : Option String → FetchOutcome α}
    {req : Option String} {ds : List (List α)} {ts : List String} {last : Option String}
    (h : ChainTo f req ds ts last) : ts.length = ds.length := by
  induction h with
  | nil req => rfl
  | cons req d t ds ts last hsrc ht hrest ih => simp [ih]

namespace Monitor

/-- One organization member as the license monitor reads it: only the
active flag and the license field are consulted. -/
structure Member where
  active : Option Bool
  license : Option String
deriving DecidableEq, Repr

/-- Hardcoded license allocation of miro_license_monitor.py. -/
def total_licenses : Nat := 600

/-- List comprehension of main: members whose active flag is truthy and
whose license field equals the string full. -/
def licensed_users (members : List Member) : List Member :=
  members.filter (fun m => pyTruthyBool m.active && m.license == some "full")

/-- used_licenses of main: the length of the filtered list. -/
def used_licenses (members : List Member) : Nat :=
  (licensed_users members).length

/-- fetch_members of miro_license_monitor.py: the cursor-style pagination
loop. State per iteration: remaining fuel, the Python cursor variable, the
members accumulator and the log of requests issued so far (none means a
request with no cursor parameter at all, some t one with cursor t). A
non-success status raises (raise_for_status), an unparseable body raises
(response.json()), both returned as Except.error; the data list is
appended and a falsy cursor breaks the loop. -/
def fetch_members {α : Type} (src : Option String → FetchOutcome α)
    (fuel : Nat) (cursor : Option String) (acc : List α)
    (reqs : List (Option String)) :
    Option (Except FetchErr (List α) × List (Option String)) :=
  match fuel with
  | 0 => none
  | f + 1 =>
    let req := if truthyStr cursor then cursor else none
    match src req with
    | FetchOutcome.httpError s b =>
        some (Except.error (FetchErr.http s b), reqs ++ [req])
    | FetchOutcome.malformedBody =>
        some (Except.error FetchErr.malformed, reqs ++ [req])
    | FetchOutcome.page d c =>
        if truthyStr c then fetch_members src f c (acc ++ d) (reqs ++ [req])
        else some (Except.ok (acc ++ d), reqs ++ [req])

/-- Result of the final loop iteration of fetch_members at a terminal
response, given the accumulator and request log as they stand after the
final request has been appended. -/
def finalStep {α : Type} (o : FetchOutcome α) (acc : List α)
    (reqs : List (Option String)) :
    Option (Except FetchErr (List α) × List (Option String)) :=
  match o with
  | FetchOutcome.page d _ => some (Except.ok (acc ++ d), reqs)
  | FetchOutcome.httpError s b => some (Except.error (FetchErr.http s b), reqs)
  | FetchOutcome.malformedBody => some (Except.error FetchErr.malformed, reqs)

/-- The two alert message shapes of main, abstracting the formatted Slack
texts: the overage alert embeds used, total and their difference, the
within-limit report embeds used, total and the remaining count. -/
inductive AlertMessage where
  | overage (used total excess : Nat)
  | withinLimit (used total available : Nat)
deriving DecidableEq, Repr

/-- Message selection of main: strictly more used than total produces the
overage alert, otherwise the within-limit report. -/
def decide (used total : Nat) : AlertMessage :=
  if used > total then AlertMessage.overage used total (used - total)
  else AlertMessage.withinLimit used total (total - used)

/-- Master lemma for the monitor loop: after consuming a served chain of
pages whose last continuation leads to a request with a terminal response,
fetch_members ends in the final-iteration result, with the full request
log attached. -/
theorem fetch_members_chainTo {α : Type} (src : Option String → FetchOutcome α)
    {ds : List (List α)} {ts : List String} {last req : Option String}
    (h : ChainTo src req ds ts last) :
    ∀ cursor : Option String, req = (if truthyStr cursor then cursor else none) →
    Terminal (src last) →
    ∀ fuel acc reqs, ds.length + 1 ≤ fuel →
    fetch_members src fuel cursor acc reqs =
      finalStep (src last) (acc ++ ds.flatten) (reqs ++ (req :: ts.map some)) := by
  induction h with
  | nil req0 =>
    intro cursor hreq hterm fuel acc reqs hfuel
    obtain ⟨f, rfl⟩ : ∃ f, fuel = f + 1 := ⟨fuel - 1, by omega⟩
    rw [show fetch_members src (f + 1) cursor acc reqs =
        (match src (if truthyStr cursor then cursor else none) with
          | FetchOutcome.httpError s b =>
              some (Except.error (FetchErr.http s b),
                reqs ++ [if truthyStr cursor then cursor else none])
          | FetchOutcome.malformedBody =>
              some (Except.error FetchErr.malformed,
                reqs ++ [if truthyStr cursor then cursor else none])
          | FetchOutcome.page d c =>
              if truthyStr c then
                fetch_members src f c (acc ++ d)
                  (reqs ++ [if truthyStr cursor then cursor else none])
              else some (Except.ok (acc ++ d),
                reqs ++ [if truthyStr cursor then cursor else none])) from rfl]
    rw [← hreq]
    cases hs : src req0 with
    | page d c =>
        have hc := hterm d c hs
        simp [hc, finalStep]
    | httpError s b => simp [finalStep]
    | malformedBody => simp [finalStep]
  | cons req0 d t ds' ts' last0 hsrc ht hrest ih =>
    intro cursor hreq hterm fuel acc reqs hfuel
    obtain ⟨f, rfl⟩ : ∃ f, fuel = f + 1 := ⟨fuel - 1, by omega⟩
    rw [show fetch_members src (f + 1) cursor acc reqs =
        (match src (if truthyStr cursor then cursor else none) with
          | FetchOutcome.httpError s b =>
              some (Except.error (FetchErr.http s b),
                reqs ++ [if truthyStr cursor then cursor else none])
          | FetchOutcome.malformedBody =>
              some (Except.error FetchErr.malformed,
                reqs ++ [if truthyStr cursor then cursor else none])
          | FetchOutcome.page d c =>
              if truthyStr c then
                fetch_members src f c (acc ++ d)
                  (reqs ++ [if truthyStr cursor then cursor else none])
              else some (Except.ok (acc ++ d),
                reqs ++ [if truthyStr cursor then cursor else none])) from rfl]
    rw [← hreq, hsrc]
    simp only [ht, if_true]
    rw [ih (some t) (by simp [ht]) hterm f (acc ++ d) (reqs ++ [req0]) (by simp at hfuel ⊢; omega)]
    simp [List.append_assoc]
end Monitor

namespace BoardsExport

/-- The nested owner record of a board; only its name field is read. -/
structure Owner where
  name : Option String
deriving DecidableEq, Repr

/-- One board as miro_boards_export.py reads it. The owner field is an
optional nested record; none models an absent owner key, for which the
source substitutes the empty dict before reading the name. -/
structure Board where
  id : Option String
  name : Option String
  owner : Option Owner
  createdAt : Option String
  modifiedAt : Option String
  viewLink : Option String
deriving DecidableEq, Repr

/-- fetch_boards of miro_boards_export.py: the link-style pagination loop.
State: remaining fuel, the url variable, the boards accumulator and the
count of GET requests issued. A non-success status prints and breaks, an
unparseable body prints and breaks — both silently return the accumulator;
a truthy next link replaces the url, a falsy one breaks the loop. -/
def fetch_boards {α : Type} (src : String → FetchOutcome α)
    (fuel : Nat) (url : String) (acc : List α) (calls : Nat) :
    Option (List α × Nat) :=
  match fuel with
  | 0 => none
  | f + 1 =>
    if url.isEmpty then some (acc, calls)
    else
      match src url with
      | FetchOutcome.httpError _ _ => some (acc, calls + 1)
      | FetchOutcome.malformedBody => some (acc, calls + 1)
      | FetchOutcome.page d c =>
          if truthyStr c then fetch_boards src f (c.getD "") (acc ++ d) (calls + 1)
          else some (acc ++ d, calls + 1)

/-- Result of the final loop iteration of fetch_boards at a terminal
response, with accumulator and call count as they stand after the final
request. -/
def finalStep {α : Type} (o : FetchOutcome α) (acc : List α) (calls : Nat) :
    Option (List α × Nat) :=
  match o with
  | FetchOutcome.page d _ => some (acc ++ d, calls)
  | FetchOutcome.httpError _ _ => some (acc, calls)
  | FetchOutcome.malformedBody => some (acc, calls)

/-- Master lemma for the boards loop: after consuming a served link chain
ending at a URL with a terminal response, fetch_boards ends in the
final-iteration result, having issued one request per chain page plus the
final one. -/
theorem fetch_boards_linkChainTo {α : Type} (src : String → FetchOutcome α)
    {ds : List (List α)} {last : String} :
    ∀ url : String, LinkChainTo src url ds last → url ≠ "" →
    Terminal (src last) →
    ∀ fuel acc calls, ds.length + 1 ≤ fuel →
    fetch_boards src fuel url acc calls =
      finalStep (src last) (acc ++ ds.flatten) (calls + ds.length + 1) := by
  intro url h
  induction h with
  | nil url0 =>
    intro hu hterm fuel acc calls hfuel
    obtain ⟨f, rfl⟩ : ∃ f, fuel = f + 1 := ⟨fuel - 1, by omega⟩
    have hue : url0.isEmpty = false := by
      cases hh : url0.isEmpty
      · rfl
      · exact absurd ((String.isEmpty_iff url0).mp hh) hu
    rw [show fetch_boards src (f + 1) url0 acc calls =
        (if url0.isEmpty then some (acc, calls)
          else
            match src url0 with
            | FetchOutcome.httpError _ _ => some (acc, calls + 1)
            | FetchOutcome.malformedBody => some (acc, calls + 1)
            | FetchOutcome.page d c =>
                if truthyStr c then fetch_boards src f (c.getD "") (acc ++ d) (calls + 1)
                else some (acc ++ d, calls + 1)) from rfl]
    rw [hue]
    simp only [Bool.false_eq_true, if_false]
    cases hs : src url0 with
    | page d c =>
        have hc := hterm d c hs
        simp [hc, finalStep]
    | httpError s b => simp [finalStep]
    | malformedBody => simp [finalStep]
  | cons url0 d u ds' last0 hsrc ht hrest ih =>
    intro hu hterm fuel acc calls hfuel
    obtain ⟨f, rfl⟩ : ∃ f, fuel = f + 1 := ⟨fuel - 1, by omega⟩
    have hue : url0.isEmpty = false := by
      cases hh : url0.isEmpty
      · rfl
      · exact absurd ((String.isEmpty_iff url0).mp hh) hu
    have huu : u ≠ "" := by
      intro he
      rw [he] at ht
      exact absurd ht (by decide)
    rw [show fetch_boards src (f + 1) url0 acc calls =
        (if url0.isEmpty then some (acc, calls)
          else
            match src url0 with
            | FetchOutcome.httpError _ _ => some (acc, calls + 1)
            | FetchOutcome.malformedBody => some (acc, calls + 1)
            | FetchOutcome.page d c =>
                if truthyStr c then fetch_boards src f (c.getD "") (acc ++ d) (calls + 1)
                else some (acc ++ d, calls + 1)) from rfl]
    rw [hue]
    simp only [Bool.false_eq_true, if_false]
    rw [hsrc]
    simp only [ht, if_true, Option.getD_some]
    rw [ih huu hterm f (acc ++ d) (calls + 1) (by simp at hfuel ⊢; omega)]
    simp only [List.flatten_cons, List.append_assoc]
    congr 1
    rw [List.length_cons]
    omega

end BoardsExport

/-- boardRow: the six cells written for one board, in the fixed order of
the source writerow call. An absent owner is replaced by the empty dict,
whose name lookup yields None and hence an empty cell. -/
def BoardsExport.boardRow (b : BoardsExport.Board) : List String :=
  [strCell b.id, strCell b.name, strCell ((b.owner.getD ⟨none⟩).name),
    strCell b.createdAt, strCell b.modifiedAt, strCell b.viewLink]

/-- Header row written by export_to_csv of miro_boards_export.py. -/
def BoardsExport.boardsHeader : List String :=
  ["Board ID", "Name", "Owner", "Created At", "Modified At", "Link"]

/-- export_to_csv of miro_boards_export.py, as the list of rows written:
the header first, then one row per board in order. -/
def BoardsExport.export_to_csv (boards : List BoardsExport.Board) : List (List String) :=
  BoardsExport.boardsHeader :: boards.map BoardsExport.boardRow

namespace MembersExport

/-- One organization member as miro_members_export.py reads it. A field of
type Option String is none when the key is absent or null. The two
timestamp fields read with an N-slash-A default distinguish an absent key
(outer none) from a null value (some none). -/
structure MemberRec where
  id : Option String
  active : Option Bool
  adminRoles : Option (List String)
  email : Option String
  lastActivityAt : Option (Option String)
  license : Option String
  licenseAssignedAt : Option (Option String)
  role : Option String
  type : Option String
deriving DecidableEq, Repr

/-- Cell for a field read with the N-slash-A default: an absent key gives
the default string, a null value gives None and hence an empty cell, a
present string gives itself. -/
def naCell : Option (Option String) → String
  | none => "N/A"
  | some none => ""
  | some (some s) => s

/-- Cell for the adminRoles field: the roles list (absent key defaulting
to the empty list) joined with a comma and a space. -/
def rolesCell (roles : Option (List String)) : String :=
  String.intercalate ", " (roles.getD [])

/-- The fieldnames list of export_to_csv, fixing the column order. -/
def memberFieldnames : List String :=
  ["id", "active", "adminRoles", "email", "lastActivityAt", "license",
    "licenseAssignedAt", "role", "type"]

/-- The nine cells written for one member, in fieldnames order. -/
def memberRow (m : MemberRec) : List String :=
  [strCell m.id, boolCell m.active, rolesCell m.adminRoles, strCell m.email,
    naCell m.lastActivityAt, strCell m.license, naCell m.licenseAssignedAt,
    strCell m.role, strCell m.type]

/-- export_to_csv of miro_members_export.py, as the list of rows written:
the header first, then one row per member in order. -/
def export_to_csv (members : List MemberRec) : List (List String) :=
  memberFieldnames :: members.map memberRow

/-- fetch_members of miro_members_export.py: the cursor-style pagination
loop, parameterised by the organization id typed at the prompt, which is
embedded in every request URL. A non-success status prints and breaks,
silently returning the accumulator; response.json() on an unparseable
body raises, which nothing catches. The request log records pairs of the
organization id and the optional cursor parameter. -/
def fetch_members {α : Type} (src : String → Option String → FetchOutcome α)
    (org : String) (fuel : Nat) (cursor : Option String) (acc : List α)
    (reqs : List (String × Option String)) :
    Option (Except FetchErr (List α) × List (String × Option String)) :=
  match fuel with
  | 0 => none
  | f + 1 =>
    let req := if truthyStr cursor then cursor else none
    match src org req with
    | FetchOutcome.httpError _ _ =>
        some (Except.ok acc, reqs ++ [(org, req)])
    | FetchOutcome.malformedBody =>
        some (Except.error FetchErr.malformed, reqs ++ [(org, req)])
    | FetchOutcome.page d c =>
        if truthyStr c then fetch_members src org f c (acc ++ d) (reqs ++ [(org, req)])
        else some (Except.ok (acc ++ d), reqs ++ [(org, req)])

/-- Result of the final loop iteration of the export fetch_members at a
terminal response: a failing status silently yields the accumulator, an
unparseable body raises, a falsy-token page yields the accumulator with
the final page appended. -/
def finalStep {α : Type} (o : FetchOutcome α) (acc : List α)
    (reqs : List (String × Option String)) :
    Option (Except FetchErr (List α) × List (String × Option String)) :=
  match o with
  | FetchOutcome.page d _ => some (Except.ok (acc ++ d), reqs)
  | FetchOutcome.httpError _ _ => some (Except.ok acc, reqs)
  | FetchOutcome.malformedBody => some (Except.error FetchErr.malformed, reqs)

/-- Master lemma for the export members loop, in the shape of the monitor
one; the request log carries the organization id on every request. -/
theorem fetch_members_export_chainTo {α : Type}
    (src : String → Option String → FetchOutcome α) (org : String)
    {ds : List (List α)} {ts : List String} {last req : Option String}
    (h : ChainTo (src org) req ds ts last) :
    ∀ cursor : Option String, req = (if truthyStr cursor then cursor else none) →
    Terminal (src org last) →
    ∀ fuel acc reqs, ds.length + 1 ≤ fuel →
    fetch_members src org fuel cursor acc reqs =
      finalStep (src org last) (acc ++ ds.flatten)
        (reqs ++ ((req :: ts.map some).map (fun r => (org, r)))) := by
  induction h with
  | nil req0 =>
    intro cursor hreq hterm fuel acc reqs hfuel
    obtain ⟨f, rfl⟩ : ∃ f, fuel = f + 1 := ⟨fuel - 1, by omega⟩
    rw [show fetch_members src org (f + 1) cursor acc reqs =
        (match src org (if truthyStr cursor then cursor else none) with
          | FetchOutcome.httpError _ _ =>
              some (Except.ok acc,
                reqs ++ [(org, if truthyStr cursor then cursor else none)])
          | FetchOutcome.malformedBody =>
              some (Except.error FetchErr.malformed,
                reqs ++ [(org, if truthyStr cursor then cursor else none)])
          | FetchOutcome.page d c =>
              if truthyStr c then
                fetch_members src org f c (acc ++ d)
                  (reqs ++ [(org, if truthyStr cursor then cursor else none)])
              else some (Except.ok (acc ++ d),
                reqs ++ [(org, if truthyStr cursor then cursor else none)])) from rfl]
    rw [← hreq]
    cases hs : src org req0 with
    | page d c =>
        have hc := hterm d c hs
        simp [hc, finalStep]
    | httpError s b => simp [finalStep]
    | malformedBody => simp [finalStep]
  | cons req0 d t ds' ts' last0 hsrc ht hrest ih =>
    intro cursor hreq hterm fuel acc reqs hfuel
    obtain ⟨f, rfl⟩ : ∃ f, fuel = f + 1 := ⟨fuel - 1, by omega⟩
    rw [show fetch_members src org (f + 1) cursor acc reqs =
        (match src org (if truthyStr cursor then cursor else none) with
          | FetchOutcome.httpError _ _ =>
              some (Except.ok acc,
                reqs ++ [(org, if truthyStr cursor then cursor else none)])
          | FetchOutcome.malformedBody =>
              some (Except.error FetchErr.malformed,
                reqs ++ [(org, if truthyStr cursor then cursor else none)])
          | FetchOutcome.page d c =>
              if truthyStr c then
                fetch_members src org f c (acc ++ d)
                  (reqs ++ [(org, if truthyStr cursor then cursor else none)])
              else some (Except.ok (acc ++ d),
                reqs ++ [(org, if truthyStr cursor then cursor else none)])) from rfl]
    rw [← hreq, hsrc]
    simp only [ht, if_true]
    rw [ih (some t) (by simp [ht]) hterm f (acc ++ d) (reqs ++ [(org, req0)])
      (by simp at hfuel ⊢; omega)]
    simp [List.append_assoc]

end MembersExport

/-- Observable outcome of one run of main of miro_license_monitor.py:
the ValueError raised on missing configuration before any request, a
fetch error propagating out of fetch_members, or a completed run carrying
the fetch request log and the list of messages posted to the webhook. -/
inductive MonitorOutcome where
  | precondError
  | fetchRaised (e : FetchErr) (reqs : List (Option String))
  | completed (reqs : List (Option String)) (posts : List Monitor.AlertMessage)
deriving DecidableEq, Repr

/-- main of miro_license_monitor.py: raise ValueError when the token, the
org id or the webhook URL is missing or empty, before any request;
otherwise fetch all members, count the active full-license ones, select
the message with decide and post exactly that one message. -/
def Monitor.main (api_token org_id slack_webhook_url : Option String)
    (src : Option String → FetchOutcome Monitor.Member) (fuel : Nat) :
    Option MonitorOutcome :=
  if !truthyStr api_token || !truthyStr org_id || !truthyStr slack_webhook_url then
    some MonitorOutcome.precondError
  else
    match Monitor.fetch_members src fuel none [] [] with
    | none => none
    | some (Except.error e, reqs) => some (MonitorOutcome.fetchRaised e reqs)
    | some (Except.ok members, reqs) =>
        some (MonitorOutcome.completed reqs
          [Monitor.decide (Monitor.used_licenses members) Monitor.total_licenses])

/-- Observable outcome of one run of main of miro_members_export.py after
the token has been read: the early exit on an empty token, a raised fetch
error, or a finished run with the fetched members and the request log. -/
inductive ExportOutcome where
  | precondExit
  | raised (e : FetchErr) (reqs : List (String × Option String))
  | finished (members : List MembersExport.MemberRec)
      (reqs : List (String × Option String))
deriving DecidableEq, Repr

/-- main of miro_members_export.py, starting after the token file has been
read: exit when the token is empty, before any request; otherwise call
fetch_members, which prompts for the organization id and issues requests
with it unconditionally — an empty organization id is never checked. -/
def MembersExport.main (api_token : String) (org_id : String)
    (src : String → Option String → FetchOutcome MembersExport.MemberRec)
    (fuel : Nat) : Option ExportOutcome :=
  if api_token.isEmpty then some ExportOutcome.precondExit
  else
    match MembersExport.fetch_members src org_id fuel none [] [] with
    | none => none
    | some (Except.error e, reqs) => some (ExportOutcome.raised e reqs)
    | some (Except.ok members, reqs) => some (ExportOutcome.finished members reqs)

/-- C1: decide produces the overage variant with excess used - total
exactly when used exceeds total, and otherwise the within-limit variant
with available total - used; equality of used and total falls in the
within-limit case, exactly one variant arises for every pair, and the two
spec scenarios 601 of 600 and 600 of 600 come out as stated. -/
theorem decide_alert_characterization (u t : Nat) :
    (Monitor.decide u t = Monitor.AlertMessage.overage u t (u - t) ↔ t < u) ∧
    (Monitor.decide u t = Monitor.AlertMessage.withinLimit u t (t - u) ↔ u ≤ t) ∧
    ¬(Monitor.decide u t = Monitor.AlertMessage.overage u t (u - t) ∧
      Monitor.decide u t = Monitor.AlertMessage.withinLimit u t (t - u)) ∧
    Monitor.decide t t = Monitor.AlertMessage.withinLimit t t 0 ∧
    Monitor.decide 601 600 = Monitor.AlertMessage.overage 601 600 1 ∧
    Monitor.decide 600 600 = Monitor.AlertMessage.withinLimit 600 600 0 := by
  refine ⟨?_, ?_, ?_, ?_, by decide, by decide⟩
  · unfold Monitor.decide
    by_cases h : t < u <;> simp [h]
  · unfold Monitor.decide
    by_cases h : t < u <;> simp [h, Nat.le_of_not_lt, Nat.not_le_of_lt, h]
  · unfold Monitor.decide
    by_cases h : t < u <;> simp [h]
  · unfold Monitor.decide
    simp

/-- C2: for every sequence of pages P1..Pn in which each page leads to the
next by a truthy continuation token and the last page carries a falsy one,
the monitor cursor loop returns the in-order concatenation of the page
record lists with exactly n requests issued, and the boards link loop does
the same; the request count follows the log (or counter), so a single page
with no token gives exactly one request. -/
theorem fetchAll_concat_and_call_count (α β : Type)
    (src : Option String → FetchOutcome α)
    (ds : List (List α)) (ts : List String) (last : Option String)
    (d : List α) (c : Option String)
    (hchain : ChainTo src none ds ts last)
    (hlast : src last = FetchOutcome.page d c) (hc : truthyStr c = false)
    (fuel : Nat) (hfuel : ds.length + 1 ≤ fuel)
    (srcB : String → FetchOutcome β) (url0 : String)
    (es : List (List β)) (lastB : String) (e : List β) (cB : Option String)
    (hu : url0 ≠ "") (hchainB : LinkChainTo srcB url0 es lastB)
    (hlastB : srcB lastB = FetchOutcome.page e cB) (hcB : truthyStr cB = false)
    (fuelB : Nat) (hfuelB : es.length + 1 ≤ fuelB) :
    (Monitor.fetch_members src fuel none [] [] =
        some (Except.ok ((ds ++ [d]).flatten), none :: ts.map some) ∧
      (none :: ts.map some).length = (ds ++ [d]).length) ∧
    BoardsExport.fetch_boards srcB fuelB url0 [] 0 =
      some ((es ++ [e]).flatten, (es ++ [e]).length) := by
  refine ⟨⟨?_, ?_⟩, ?_⟩
  · have hterm : Terminal (src last) := by
      intro d2 c2 h2
      rw [hlast] at h2
      cases h2
      exact hc
    rw [Monitor.fetch_members_chainTo src hchain none rfl hterm fuel [] [] hfuel]
    rw [hlast]
    simp [Monitor.finalStep, List.flatten_append]
  · have hlen := chainTo_lengths hchain
    simp [hlen]
  · have hterm : Terminal (srcB lastB) := by
      intro d2 c2 h2
      rw [hlastB] at h2
      cases h2
      exact hcB
    rw [BoardsExport.fetch_boards_linkChainTo srcB url0 hchainB hu hterm fuelB [] 0 hfuelB]
    rw [hlastB]
    simp [BoardsExport.finalStep, List.flatten_append]

/-- Concrete cursor-style source serving a single page with no token. -/
def srcOnePage : Option String → FetchOutcome Nat :=
  fun _ => FetchOutcome.page [1, 2] none

/-- Concrete link-style source serving two pages. -/
def srcTwoLinks : String → FetchOutcome Nat :=
  fun u => if u = "page2" then FetchOutcome.page [3] none
           else FetchOutcome.page [1, 2] (some "page2")

/-- Witness for C2: a single page with no token costs exactly one request
on the monitor loop, and a two-page link chain costs exactly two on the
boards loop, each returning the concatenated records. -/
theorem fetchAll_concat_and_call_count_witness :
    (Monitor.fetch_members srcOnePage 1 none [] [] =
        some (Except.ok [1, 2], [none]) ∧
      ([none] : List (Option String)).length = 1) ∧
    BoardsExport.fetch_boards srcTwoLinks 2 "start" [] 0 =
      some ([1, 2, 3], 2) := by
  have h := fetchAll_concat_and_call_count Nat Nat srcOnePage [] [] none [1, 2] none
    (ChainTo.nil none) rfl rfl 1 (by decide) srcTwoLinks "start" [[1, 2]] "page2"
    [3] none (by decide)
    (LinkChainTo.cons "start" [1, 2] "page2" [] "page2" (by decide) (by decide)
      (LinkChainTo.nil "page2"))
    (by decide) rfl 2 (by decide)
  simpa using h

/-- C3: used_licenses counts exactly the members whose active flag equals
true and whose license equals the string full, for every member list, and
the three-member example of the spec yields 1. -/
theorem filterCount_licensed (ms : List Monitor.Member) :
    Monitor.used_licenses ms =
      ms.countP (fun m => m.active == some true && m.license == some "full") ∧
    Monitor.used_licenses
      [⟨some true, some "full"⟩, ⟨some false, some "full"⟩,
        ⟨some true, some "basic"⟩] = 1 := by
  constructor
  · unfold Monitor.used_licenses Monitor.licensed_users
    rw [List.countP_eq_length_filter]
    have heq : List.filter (fun m => pyTruthyBool m.active && m.license == some "full") ms =
        List.filter (fun m => m.active == some true && m.license == some "full") ms := by
      apply List.filter_congr
      intro m _
      cases h : m.active with
      | none => rfl
      | some b => cases b <;> rfl
    rw [heq]
  · decide

/-- Concrete export-members source whose second page has an unparseable
body, after a first page of one record with a truthy token. -/
def srcParseFail : String → Option String → FetchOutcome MembersExport.MemberRec :=
  fun _ req =>
    match req with
    | none => FetchOutcome.page
        [⟨some "u1", some true, none, none, none, some "full", none, none, none⟩]
        (some "T")
    | some _ => FetchOutcome.malformedBody

/-- C4 counterexample: at page 2 of a multi-page fetch whose body fails to
parse, the members export does NOT silently return the page-1 records: the
uncaught response.json() error propagates and the accumulated records are
lost. -/
theorem fetch_failure_policy_cex :
    MembersExport.fetch_members srcParseFail "org1" 3 none [] [] =
      some (Except.error FetchErr.malformed, [("org1", none), ("org1", some "T")]) := by
  rfl

/-- C4 (amended): after a served prefix of pages, a failing page request
is handled differently per script — the boards export silently returns
the prefix records for both failure kinds (non-success status and
unparseable body), the members export silently returns the prefix records
on a non-success status but raises on an unparseable body, and the
monitor propagates both failure kinds as raised errors, returning no
records. -/
theorem fetch_failure_policy_amended (α : Type)
    (srcB : String → FetchOutcome α) (url0 : String)
    (dsB : List (List α)) (lastB : String)
    (hB : LinkChainTo srcB url0 dsB lastB) (hu : url0 ≠ "")
    (hfailB : (∃ s b, srcB lastB = FetchOutcome.httpError s b) ∨
      srcB lastB = FetchOutcome.malformedBody)
    (fuelB : Nat) (hfB : dsB.length + 1 ≤ fuelB)
    (srcE : String → Option String → FetchOutcome α) (org : String)
    (dsE : List (List α)) (tsE : List String) (lastE : Option String)
    (hE : ChainTo (srcE org) none dsE tsE lastE)
    (fuelE : Nat) (hfE : dsE.length + 1 ≤ fuelE)
    (srcM : Option String → FetchOutcome α)
    (dsM : List (List α)) (tsM : List String) (lastM : Option String)
    (hM : ChainTo srcM none dsM tsM lastM)
    (fuelM : Nat) (hfM : dsM.length + 1 ≤ fuelM) :
    BoardsExport.fetch_boards srcB fuelB url0 [] 0 =
        some (dsB.flatten, dsB.length + 1) ∧
    (∀ s b, srcE org lastE = FetchOutcome.httpError s b →
      MembersExport.fetch_members srcE org fuelE none [] [] =
        some (Except.ok dsE.flatten,
          (none :: tsE.map some).map (fun r => (org, r)))) ∧
    (srcE org lastE = FetchOutcome.malformedBody →
      MembersExport.fetch_members srcE org fuelE none [] [] =
        some (Except.error FetchErr.malformed,
          (none :: tsE.map some).map (fun r => (org, r)))) ∧
    (∀ s b, srcM lastM = FetchOutcome.httpError s b →
      Monitor.fetch_members srcM fuelM none [] [] =
        some (Except.error (FetchErr.http s b), none :: tsM.map some)) ∧
    (srcM lastM = FetchOutcome.malformedBody →
      Monitor.fetch_members srcM fuelM none [] [] =
        some (Except.error FetchErr.malformed, none :: tsM.map some)) := by
  refine ⟨?_, ?_, ?_, ?_, ?_⟩
  · have hterm : Terminal (srcB lastB) := by
      intro d2 c2 h2
      rcases hfailB with ⟨s, b, hf⟩ | hf <;> rw [hf] at h2 <;> cases h2
    rw [BoardsExport.fetch_boards_linkChainTo srcB url0 hB hu hterm fuelB [] 0 hfB]
    rcases hfailB with ⟨s, b, hf⟩ | hf <;> rw [hf] <;>
      simp [BoardsExport.finalStep]
  · intro s b hf
    have hterm : Terminal (srcE org lastE) := by
      intro d2 c2 h2
      rw [hf] at h2
      cases h2
    rw [MembersExport.fetch_members_export_chainTo srcE org hE none rfl hterm fuelE [] [] hfE]
    rw [hf]
    simp [MembersExport.finalStep]
  · intro hf
    have hterm : Terminal (srcE org lastE) := by
      intro d2 c2 h2
      rw [hf] at h2
      cases h2
    rw [MembersExport.fetch_members_export_chainTo srcE org hE none rfl hterm fuelE [] [] hfE]
    rw [hf]
    simp [MembersExport.finalStep]
  · intro s b hf
    have hterm : Terminal (srcM lastM) := by
      intro d2 c2 h2
      rw [hf] at h2
      cases h2
    rw [Monitor.fetch_members_chainTo srcM hM none rfl hterm fuelM [] [] hfM]
    rw [hf]
    simp [Monitor.finalStep]
  · intro hf
    have hterm : Terminal (srcM lastM) := by
      intro d2 c2 h2
      rw [hf] at h2
      cases h2
    rw [Monitor.fetch_members_chainTo srcM hM none rfl hterm fuelM [] [] hfM]
    rw [hf]
    simp [Monitor.finalStep]

/-- Concrete link-style source failing with a 500 after one page. -/
def srcBoardsFail : String → FetchOutcome Nat :=
  fun u => if u = "next1" then FetchOutcome.httpError 500 "server error"
           else FetchOutcome.page [7] (some "next1")

/-- Concrete cursor-style source failing with a 403 after one page. -/
def srcExpHttp : String → Option String → FetchOutcome Nat :=
  fun _ req =>
    match req with
    | none => FetchOutcome.page [1] (some "k1")
    | some _ => FetchOutcome.httpError 403 "forbidden"

/-- Concrete cursor-style source with an unparseable second page. -/
def srcMonBad : Option String → FetchOutcome Nat :=
  fun req =>
    match req with
    | none => FetchOutcome.page [2] (some "k2")
    | some _ => FetchOutcome.malformedBody

/-- Witness for the amended C4: one good page then a failure — the boards
export keeps its page silently, the members export keeps its page on a
status failure, the monitor raises and loses its page. -/
theorem fetch_failure_policy_amended_witness :
    BoardsExport.fetch_boards srcBoardsFail 2 "start" [] 0 = some ([7], 2) ∧
    MembersExport.fetch_members srcExpHttp "orgW" 2 none [] [] =
      some (Except.ok [1], [("orgW", none), ("orgW", some "k1")]) ∧
    Monitor.fetch_members srcMonBad 2 none [] [] =
      some (Except.error FetchErr.malformed, [none, some "k2"]) := by
  have h := fetch_failure_policy_amended Nat srcBoardsFail "start" [[7]] "next1"
    (LinkChainTo.cons "start" [7] "next1" [] "next1" (by decide) (by decide)
      (LinkChainTo.nil "next1"))
    (by decide) (Or.inl ⟨500, "server error", by decide⟩) 2 (by decide)
    srcExpHttp "orgW" [[1]] ["k1"] (some "k1")
    (ChainTo.cons none [1] "k1" [] [] (some "k1") rfl (by decide)
      (ChainTo.nil (some "k1"))) 2 (by decide)
    srcMonBad [[2]] ["k2"] (some "k2")
    (ChainTo.cons none [2] "k2" [] [] (some "k2") rfl (by decide)
      (ChainTo.nil (some "k2"))) 2 (by decide)
  refine ⟨?_, ?_, ?_⟩
  · simpa using h.1
  · simpa using h.2.1 403 "forbidden" rfl
  · simpa using h.2.2.2.2 rfl

/-- Source with a continuation-token cycle: the first page carries token A
and the page served for token A carries token A again, so page 2 repeats
an earlier token. -/
def srcCycle : Option String → FetchOutcome Monitor.Member :=
  fun _ => FetchOutcome.page [⟨some true, some "full"⟩] (some "A")

/-- The monitor fetch loop never returns on the given source: every fuel
bound is exhausted. -/
def monitorFetchDiverges (src : Option String → FetchOutcome Monitor.Member) : Prop :=
  ∀ fuel, Monitor.fetch_members src fuel none [] [] = none

/-- Helper: a source answering every request with a page carrying a truthy
token never lets the monitor loop return, whatever the fuel. -/
theorem truthy_pages_never_return {α : Type} (src : Option String → FetchOutcome α)
    (h : ∀ req, ∃ d t, src req = FetchOutcome.page d (some t) ∧
      truthyStr (some t) = true) :
    ∀ fuel cursor acc reqs, Monitor.fetch_members src fuel cursor acc reqs = none := by
  intro fuel
  induction fuel with
  | zero => intro cursor acc reqs; rfl
  | succ f ih =>
    intro cursor acc reqs
    obtain ⟨d, t, hs, ht⟩ := h (if truthyStr cursor then cursor else none)
    rw [show Monitor.fetch_members src (f + 1) cursor acc reqs =
        (match src (if truthyStr cursor then cursor else none) with
          | FetchOutcome.httpError s b =>
              some (Except.error (FetchErr.http s b),
                reqs ++ [if truthyStr cursor then cursor else none])
          | FetchOutcome.malformedBody =>
              some (Except.error FetchErr.malformed,
                reqs ++ [if truthyStr cursor then cursor else none])
          | FetchOutcome.page d c =>
              if truthyStr c then
                Monitor.fetch_members src f c (acc ++ d)
                  (reqs ++ [if truthyStr cursor then cursor else none])
              else some (Except.ok (acc ++ d),
                reqs ++ [if truthyStr cursor then cursor else none])) from rfl]
    rw [hs]
    simp only [ht, if_true]
    exact ih _ _ _

/-- C5 counterexample: on the cyclic source the monitor fetch loop runs
out of any fuel bound — it loops indefinitely and never fails with a
protocol error, contradicting the claimed guard. -/
theorem token_cycle_no_protocol_error_cex : monitorFetchDiverges srcCycle := by
  intro fuel
  exact truthy_pages_never_return srcCycle
    (fun _ => ⟨[⟨some true, some "full"⟩], "A", rfl, rfl⟩) fuel none [] []

/-- C5 (amended): a page source that answers every request with a page
carrying a truthy continuation token — which is what a continuation-token
cycle produces along its reachable requests — makes the fetch loop run
forever: it exhausts every fuel bound, and no protocol error is ever
raised. -/
theorem truthy_cycle_diverges_amended {α : Type}
    (src : Option String → FetchOutcome α)
    (h : ∀ req, ∃ d t, src req = FetchOutcome.page d (some t) ∧
      truthyStr (some t) = true)
    (fuel : Nat) (cursor : Option String) (acc : List α)
    (reqs : List (Option String)) :
    Monitor.fetch_members src fuel cursor acc reqs = none :=
  truthy_pages_never_return src h fuel cursor acc reqs

/-- Witness for the amended C5 at the concrete cyclic source and fuel 5. -/
theorem truthy_cycle_diverges_amended_witness :
    Monitor.fetch_members srcCycle 5 none [] [] = none :=
  truthy_cycle_diverges_amended srcCycle
    (fun _ => ⟨[⟨some true, some "full"⟩], "A", rfl, rfl⟩) 5 none [] []

/-- Concrete server for the empty-org-id run: one page, no token. -/
def srcEmptyOrgServer : String → Option String → FetchOutcome MembersExport.MemberRec :=
  fun _ _ =>
    FetchOutcome.page [⟨none, none, none, none, none, none, none, none, none⟩] none

/-- C6 counterexample: with a nonempty token and an EMPTY organization id,
the members export still issues a fetch request — logged with the empty
org id embedded — instead of failing with a precondition error before any
network call. -/
theorem empty_org_id_still_fetches_cex :
    MembersExport.main "tok123" "" srcEmptyOrgServer 1 =
      some (ExportOutcome.finished
        [⟨none, none, none, none, none, none, none, none, none⟩] [("", none)]) := by
  rfl

/-- C6 (amended): the monitor raises its ValueError before any request
whenever the token, the org id or the webhook URL is missing or empty,
and the members export exits before any request when its token is empty;
the organization id of the members export is not covered by any such
guard. -/
theorem precondition_guard_amended (a o w : Option String)
    (src1 : Option String → FetchOutcome Monitor.Member) (fuel1 : Nat)
    (org : String)
    (src2 : String → Option String → FetchOutcome MembersExport.MemberRec)
    (fuel2 : Nat)
    (h : truthyStr a = false ∨ truthyStr o = false ∨ truthyStr w = false) :
    Monitor.main a o w src1 fuel1 = some MonitorOutcome.precondError ∧
    MembersExport.main "" org src2 fuel2 = some ExportOutcome.precondExit := by
  constructor
  · unfold Monitor.main
    rcases h with h | h | h <;> simp [h]
  · rfl

/-- Witness for the amended C6: a missing token blocks the monitor run,
and an empty token blocks the members export run. -/
theorem precondition_guard_amended_witness :
    Monitor.main none (some "org") (some "hook") srcCycle 3 =
      some MonitorOutcome.precondError ∧
    MembersExport.main "" "anyOrg" srcEmptyOrgServer 3 =
      some ExportOutcome.precondExit :=
  precondition_guard_amended none (some "org") (some "hook") srcCycle 3 "anyOrg"
    srcEmptyOrgServer 3 (Or.inl rfl)

/-- C7: each exporter writes a header row and then exactly one row per
fetched record, in the fixed column order of the source; a board without
an owner key exports an empty owner cell instead of failing. -/
theorem export_rows_fixed_columns (bs : List BoardsExport.Board)
    (ms : List MembersExport.MemberRec) (b : BoardsExport.Board)
    (m : MembersExport.MemberRec) :
    (BoardsExport.export_to_csv bs).length = bs.length + 1 ∧
    (BoardsExport.export_to_csv bs).tail = bs.map BoardsExport.boardRow ∧
    (MembersExport.export_to_csv ms).length = ms.length + 1 ∧
    (MembersExport.export_to_csv ms).tail = ms.map MembersExport.memberRow ∧
    BoardsExport.boardRow b =
      [strCell b.id, strCell b.name,
        (match b.owner with
          | none => ""
          | some o => strCell o.name),
        strCell b.createdAt, strCell b.modifiedAt, strCell b.viewLink] ∧
    MembersExport.memberRow m =
      [strCell m.id, boolCell m.active,
        String.intercalate ", " (m.adminRoles.getD []),
        strCell m.email, MembersExport.naCell m.lastActivityAt, strCell m.license,
        MembersExport.naCell m.licenseAssignedAt, strCell m.role, strCell m.type] ∧
    (b.owner = none → (BoardsExport.boardRow b)[2]? = some "") := by
  refine ⟨by simp [BoardsExport.export_to_csv], rfl,
    by simp [MembersExport.export_to_csv], rfl, ?_, rfl, ?_⟩
  · unfold BoardsExport.boardRow
    cases b.owner with
    | none => rfl
    | some o => rfl
  · intro h
    unfold BoardsExport.boardRow
    rw [h]
    rfl

/-- Concrete board record with no owner key. -/
def boardNoOwner : BoardsExport.Board :=
  ⟨some "b1", some "Roadmap", none, some "2024-12-19", some "2024-12-20",
    some "https-link"⟩

/-- Witness for C7 at a concrete ownerless board: its owner cell is the
empty string. -/
theorem export_rows_fixed_columns_witness :
    (BoardsExport.boardRow boardNoOwner)[2]? = some "" :=
  (export_rows_fixed_columns [] [] boardNoOwner
    ⟨none, none, none, none, none, none, none, none, none⟩).2.2.2.2.2.2 rfl

/-- C8: whenever the three environment values are present and the fetch
succeeds over a complete page chain, the monitor posts exactly one
message — the one selected by decide — to the webhook; this holds in the
within-limit case exactly as in the overage case, so a report goes out
even when usage does not exceed the threshold. -/
theorem monitor_posts_exactly_one (a o w : Option String)
    (src : Option String → FetchOutcome Monitor.Member)
    (ds : List (List Monitor.Member)) (ts : List String) (last : Option String)
    (d : List Monitor.Member) (c : Option String)
    (ha : truthyStr a = true) (ho : truthyStr o = true) (hw : truthyStr w = true)
    (hchain : ChainTo src none ds ts last)
    (hlast : src last = FetchOutcome.page d c) (hc : truthyStr c = false)
    (fuel : Nat) (hfuel : ds.length + 1 ≤ fuel) :
    Monitor.main a o w src fuel =
      some (MonitorOutcome.completed (none :: ts.map some)
        [Monitor.decide (Monitor.used_licenses (ds.flatten ++ d))
          Monitor.total_licenses]) ∧
    (∀ reqs posts,
      Monitor.main a o w src fuel = some (MonitorOutcome.completed reqs posts) →
      posts.length = 1) := by
  have hterm : Terminal (src last) := by
    intro d2 c2 h2
    rw [hlast] at h2
    cases h2
    exact hc
  have hfetch := Monitor.fetch_members_chainTo src hchain none rfl hterm fuel [] [] hfuel
  rw [hlast] at hfetch
  have hmain : Monitor.main a o w src fuel =
      some (MonitorOutcome.completed (none :: ts.map some)
        [Monitor.decide (Monitor.used_licenses (ds.flatten ++ d))
          Monitor.total_licenses]) := by
    unfold Monitor.main
    simp only [ha, ho, hw, Bool.not_true, Bool.or_self, Bool.false_or,
      Bool.false_eq_true, if_false]
    rw [hfetch]
    simp [Monitor.finalStep]
  refine ⟨hmain, ?_⟩
  intro reqs posts heq
  rw [hmain] at heq
  simp only [Option.some.injEq, MonitorOutcome.completed.injEq] at heq
  rw [← heq.2]
  rfl

/-- Concrete one-page source serving a single active full-license member. -/
def srcOneMember : Option String → FetchOutcome Monitor.Member :=
  fun _ => FetchOutcome.page [⟨some true, some "full"⟩] none

/-- Witness for C8 in the within-limit case: one member out of 600 — the
run completes and exactly one message is posted, the within-limit report. -/
theorem monitor_posts_exactly_one_witness :
    Monitor.main (some "tok") (some "org") (some "hook") srcOneMember 1 =
      some (MonitorOutcome.completed [none]
        [Monitor.AlertMessage.withinLimit 1 600 599]) := by
  have h := (monitor_posts_exactly_one (some "tok") (some "org") (some "hook")
    srcOneMember [] [] none [⟨some true, some "full"⟩] none
    (by decide) (by decide) (by decide)
    (ChainTo.nil none) rfl rfl 1 (by decide)).1
  exact h.trans (by decide)

/-- C9: any falsy continuation token — an absent or null cursor key,
modelled none, or the empty string — ends pagination in both cursor-style
loops right after the current page, and a request issued from a falsy
cursor state (the first request included) carries no cursor parameter at
all, logged none, rather than an empty one. -/
theorem falsy_cursor_terminates_and_no_param (α : Type)
    (src : Option String → FetchOutcome α)
    (srcE : String → Option String → FetchOutcome α) (org : String)
    (cursor0 cursor1 : Option String) (d dE : List α) (c cE : Option String)
    (acc accE : List α) (reqs : List (Option String))
    (reqsE : List (String × Option String)) (fuel fuelE : Nat)
    (h0 : truthyStr cursor0 = false) (h1 : truthyStr cursor1 = false)
    (hs : src none = FetchOutcome.page d c) (hc : c = none ∨ c = some "")
    (hsE : srcE org none = FetchOutcome.page dE cE)
    (hcE : cE = none ∨ cE = some "") :
    Monitor.fetch_members src (fuel + 1) cursor0 acc reqs =
      some (Except.ok (acc ++ d), reqs ++ [none]) ∧
    MembersExport.fetch_members srcE org (fuelE + 1) cursor1 accE reqsE =
      some (Except.ok (accE ++ dE), reqsE ++ [(org, none)]) := by
  have hcf : truthyStr c = false := by
    rcases hc with h | h <;> subst h <;> rfl
  have hcEf : truthyStr cE = false := by
    rcases hcE with h | h <;> subst h <;> rfl
  constructor
  · rw [show Monitor.fetch_members src (fuel + 1) cursor0 acc reqs =
        (match src (if truthyStr cursor0 then cursor0 else none) with
          | FetchOutcome.httpError s b =>
              some (Except.error (FetchErr.http s b),
                reqs ++ [if truthyStr cursor0 then cursor0 else none])
          | FetchOutcome.malformedBody =>
              some (Except.error FetchErr.malformed,
                reqs ++ [if truthyStr cursor0 then cursor0 else none])
          | FetchOutcome.page d c =>
              if truthyStr c then
                Monitor.fetch_members src fuel c (acc ++ d)
                  (reqs ++ [if truthyStr cursor0 then cursor0 else none])
              else some (Except.ok (acc ++ d),
                reqs ++ [if truthyStr cursor0 then cursor0 else none])) from rfl]
    simp only [h0, Bool.false_eq_true, if_false]
    rw [hs]
    simp [hcf]
  · rw [show MembersExport.fetch_members srcE org (fuelE + 1) cursor1 accE reqsE =
        (match srcE org (if truthyStr cursor1 then cursor1 else none) with
          | FetchOutcome.httpError _ _ =>
              some (Except.ok accE,
                reqsE ++ [(org, if truthyStr cursor1 then cursor1 else none)])
          | FetchOutcome.malformedBody =>
              some (Except.error FetchErr.malformed,
                reqsE ++ [(org, if truthyStr cursor1 then cursor1 else none)])
          | FetchOutcome.page d c =>
              if truthyStr c then
                MembersExport.fetch_members srcE org fuelE c (accE ++ d)
                  (reqsE ++ [(org, if truthyStr cursor1 then cursor1 else none)])
              else some (Except.ok (accE ++ d),
                reqsE ++ [(org, if truthyStr cursor1 then cursor1 else none)])) from rfl]
    simp only [h1, Bool.false_eq_true, if_false]
    rw [hsE]
    simp [hcEf]

/-- Concrete monitor source answering with an empty-string token. -/
def srcEmptyTok : Option String → FetchOutcome Nat :=
  fun _ => FetchOutcome.page [4] (some "")

/-- Concrete export source answering with no token. -/
def srcEmptyTokE : String → Option String → FetchOutcome Nat :=
  fun _ _ => FetchOutcome.page [5] none

/-- Witness for C9: starting from an empty-string cursor, the request is
logged with no cursor parameter and the empty-string response token stops
the loop after one call; likewise for a null token on the export loop. -/
theorem falsy_cursor_terminates_and_no_param_witness :
    Monitor.fetch_members srcEmptyTok 3 (some "") [0] [some "x"] =
      some (Except.ok [0, 4], [some "x", none]) ∧
    MembersExport.fetch_members srcEmptyTokE "orgZ" 3 none [] [] =
      some (Except.ok [5], [("orgZ", none)]) := by
  have h := falsy_cursor_terminates_and_no_param Nat srcEmptyTok srcEmptyTokE "orgZ"
    (some "") none [4] [5] (some "") none [0] [] [some "x"] [] 2 2
    (by decide) rfl rfl (Or.inr rfl) rfl (Or.inl rfl)
  simpa using h

/-- C10: the N-slash-A default of the members export appears only when
the key is entirely absent from the record; a key carried with a null
value is written as an empty cell, never as the default — for
lastActivityAt (column 4) and licenseAssignedAt (column 6) alike. -/
theorem na_default_absent_only (m : MembersExport.MemberRec) :
    (m.lastActivityAt = none → (MembersExport.memberRow m)[4]? = some "N/A") ∧
    (m.lastActivityAt = some none →
      (MembersExport.memberRow m)[4]? = some "" ∧
      (MembersExport.memberRow m)[4]? ≠ some "N/A") ∧
    (∀ s, m.lastActivityAt = some (some s) →
      (MembersExport.memberRow m)[4]? = some s) ∧
    (m.licenseAssignedAt = none → (MembersExport.memberRow m)[6]? = some "N/A") ∧
    (m.licenseAssignedAt = some none →
      (MembersExport.memberRow m)[6]? = some "" ∧
      (MembersExport.memberRow m)[6]? ≠ some "N/A") ∧
    (∀ s, m.licenseAssignedAt = some (some s) →
      (MembersExport.memberRow m)[6]? = some s) := by
  refine ⟨?_, ?_, ?_, ?_, ?_, ?_⟩
  · intro h
    simp [MembersExport.memberRow, h, MembersExport.naCell]
  · intro h
    refine ⟨by simp [MembersExport.memberRow, h, MembersExport.naCell], ?_⟩
    simp [MembersExport.memberRow, h, MembersExport.naCell]
  · intro s h
    simp [MembersExport.memberRow, h, MembersExport.naCell]
  · intro h
    simp [MembersExport.memberRow, h, MembersExport.naCell]
  · intro h
    refine ⟨by simp [MembersExport.memberRow, h, MembersExport.naCell], ?_⟩
    simp [MembersExport.memberRow, h, MembersExport.naCell]
  · intro s h
    simp [MembersExport.memberRow, h, MembersExport.naCell]

/-- Concrete member carrying a null lastActivityAt and no
licenseAssignedAt key. -/
def memberNullLast : MembersExport.MemberRec :=
  ⟨some "u9", some true, none, some "mail", some none, some "full", none,
    some "r", some "t"⟩

/-- Witness for C10: the null-valued key gives an empty cell, the absent
key gives the default. -/
theorem na_default_absent_only_witness :
    (MembersExport.memberRow memberNullLast)[4]? = some "" ∧
    (MembersExport.memberRow memberNullLast)[6]? = some "N/A" :=
  ⟨((na_default_absent_only memberNullLast).2.1 rfl).1,
    (na_default_absent_only memberNullLast).2.2.2.1 rfl⟩

end Miro
